import Mathlib

/-!
Verification of the tablero-anuncios bulletin board core, shallowly embedded
from `src/App.tsx` and `src/lib/images.ts`.

The two subsystems modelled here are:
* the touch gesture engine (`handleTouchStart`, `handleTouchMove`,
  `handleTouchEnd`, `handleDoubleTap`, `resetZoom`), and
* the image lifecycle pipeline (`fetchImagesByCategory` aggregation in the
  initial `load` effect, `compressImage` dimension logic, `uploadImage`,
  `deleteImage`, and the React handlers `handleFileChange` /
  `handleDeleteImage`).

JavaScript numeric edge cases relevant to the gesture engine (division by
zero producing Infinity / NaN, and NaN-propagation through `Math.min` /
`Math.max`) are modelled explicitly by the `JSNum` type, since the pinch
handler divides by a baseline distance that can be zero.  Finite JavaScript
numbers are modelled as rationals.  Remote collaborators (Supabase storage
and database) are modelled by passing in the outcome of each remote call and
recording the sequence of calls the pipeline issues.
-/

namespace Tablero

/-! ## JavaScript number semantics used by the gesture engine -/

/-- A JavaScript number: a finite value, `Infinity`, `-Infinity`, or `NaN`.
Finite values are modelled as rationals. -/
inductive JSNum where
  | num : ℚ → JSNum
  | inf : JSNum
  | negInf : JSNum
  | nan : JSNum
deriving DecidableEq, Repr

/-- JavaScript `<` comparison: any comparison with `NaN` is false. -/
def jsLt : JSNum → JSNum → Bool
  | .nan, _ => false
  | _, .nan => false
  | .num a, .num b => decide (a < b)
  | .num _, .inf => true
  | .num _, .negInf => false
  | .inf, _ => false
  | .negInf, .negInf => false
  | .negInf, _ => true

/-- JavaScript `<=` comparison: any comparison with `NaN` is false. -/
def jsLe : JSNum → JSNum → Bool
  | .nan, _ => false
  | _, .nan => false
  | .num a, .num b => decide (a ≤ b)
  | .num _, .inf => true
  | .num _, .negInf => false
  | .inf, .inf => true
  | .inf, _ => false
  | .negInf, _ => true

/-- JavaScript division, including `x / 0 = ±Infinity` for `x ≠ 0` and
`0 / 0 = NaN`. -/
def jsDiv : JSNum → JSNum → JSNum
  | .nan, _ => .nan
  | _, .nan => .nan
  | .num a, .num b =>
      if b = 0 then
        if 0 < a then .inf else if a < 0 then .negInf else .nan
      else .num (a / b)
  | .num _, .inf => .num 0
  | .num _, .negInf => .num 0
  | .inf, .num b => if b < 0 then .negInf else .inf
  | .negInf, .num b => if b < 0 then .inf else .negInf
  | .inf, _ => .nan
  | .negInf, _ => .nan

/-- JavaScript multiplication, including `0 * Infinity = NaN`. -/
def jsMul : JSNum → JSNum → JSNum
  | .nan, _ => .nan
  | _, .nan => .nan
  | .num a, .num b => .num (a * b)
  | .num a, .inf => if 0 < a then .inf else if a < 0 then .negInf else .nan
  | .num a, .negInf => if 0 < a then .negInf else if a < 0 then .inf else .nan
  | .inf, .num b => if 0 < b then .inf else if b < 0 then .negInf else .nan
  | .negInf, .num b => if 0 < b then .negInf else if b < 0 then .inf else .nan
  | .inf, .inf => .inf
  | .inf, .negInf => .negInf
  | .negInf, .inf => .negInf
  | .negInf, .negInf => .inf

/-- JavaScript `Math.max`: returns `NaN` if either argument is `NaN`. -/
def jsMax : JSNum → JSNum → JSNum
  | .nan, _ => .nan
  | _, .nan => .nan
  | a, b => if jsLt a b then b else a

/-- JavaScript `Math.min`: returns `NaN` if either argument is `NaN`. -/
def jsMin : JSNum → JSNum → JSNum
  | .nan, _ => .nan
  | _, .nan => .nan
  | a, b => if jsLt a b then a else b

/-! ## Gesture engine state (`App.tsx`, zoom state and handlers) -/

/-- The zoom / gesture state of `App.tsx`: the `scale` and `position`
React states together with the gesture-session refs (`lastTapRef`,
`pinchStartDistRef`, `pinchStartScaleRef`, `panStartRef`, `posStartRef`,
`isPanningRef`).  Touch coordinates and timestamps are finite, so they are
plain rationals; `scale` is a `JSNum` because the pinch computation can
produce non-finite values. -/
structure GestureState where
  scale : JSNum
  position : ℚ × ℚ
  lastTap : ℚ
  pinchStartDist : ℚ
  pinchStartScale : JSNum
  panStart : ℚ × ℚ
  posStart : ℚ × ℚ
  isPanning : Bool
deriving DecidableEq, Repr

/-- The initial state: `useState(1)`, `useState({x:0,y:0})`, `useRef(0)`,
`useRef(0)`, `useRef(1)`, `useRef({x:0,y:0})` twice, `useRef(false)`. -/
def initState : GestureState where
  scale := .num 1
  position := (0, 0)
  lastTap := 0
  pinchStartDist := 0
  pinchStartScale := .num 1
  panStart := (0, 0)
  posStart := (0, 0)
  isPanning := false

/-- One touch-event sample, abstracting `e.touches`.  For a two-point
sample, `dist` is the Euclidean distance `Math.hypot(dx, dy)` between the
two contact points (hence nonnegative); for a one-point sample, `pos` is
the `(clientX, clientY)` of the contact.  `other` covers every other touch
count, for which the handlers do nothing. -/
inductive TouchSample where
  | twoPoint (dist : ℚ)
  | onePoint (pos : ℚ × ℚ)
  | other
deriving DecidableEq, Repr

/-- `resetZoom` from `App.tsx`: `setScale(1)` and `setPosition({x:0,y:0})`. -/
def resetZoom (s : GestureState) : GestureState :=
  { s with scale := .num 1, position := (0, 0) }

/-- `handleTouchStart` from `App.tsx`: a two-point touch records the pinch
baseline distance and the current scale as baseline scale; a one-point
touch with `scale > 1` starts panning. -/
def handleTouchStart (s : GestureState) : TouchSample → GestureState
  | .twoPoint dist =>
      { s with pinchStartDist := dist, pinchStartScale := s.scale }
  | .onePoint p =>
      if jsLt (.num 1) s.scale then
        { s with isPanning := true, panStart := p, posStart := s.position }
      else s
  | .other => s

/-- `handleTouchMove` from `App.tsx`.  A two-point move publishes
`Math.min(5, Math.max(1, pinchStartScale * (dist / pinchStartDist)))` and
resets the position to the origin when the new scale is `<= 1`; a
one-point move while panning with `scale > 1` offsets the position by the
drag delta. -/
def handleTouchMove (s : GestureState) : TouchSample → GestureState
  | .twoPoint dist =>
      let newScale :=
        jsMin (.num 5)
          (jsMax (.num 1)
            (jsMul s.pinchStartScale (jsDiv (.num dist) (.num s.pinchStartDist))))
      let s1 := { s with scale := newScale }
      if jsLe newScale (.num 1) then { s1 with position := (0, 0) } else s1
  | .onePoint p =>
      if s.isPanning && jsLt (.num 1) s.scale then
        { s with position :=
            (s.posStart.1 + (p.1 - s.panStart.1),
             s.posStart.2 + (p.2 - s.panStart.2)) }
      else s
  | .other => s

/-- `handleTouchEnd` from `App.tsx`: clears the panning flag and, when
`scale <= 1`, performs a full `resetZoom`. -/
def handleTouchEnd (s : GestureState) : GestureState :=
  let s1 := { s with isPanning := false }
  if jsLe s1.scale (.num 1) then resetZoom s1 else s1

/-- `handleDoubleTap` from `App.tsx`: when the previous tap is less than
300ms old, toggles between the reset transform and scale `2.5`; the tap
timestamp is recorded unconditionally. -/
def handleDoubleTap (s : GestureState) (now : ℚ) : GestureState :=
  let s1 :=
    if now - s.lastTap < 300 then
      if jsLt (.num 1) s.scale then resetZoom s
      else { s with scale := .num (5/2), position := (0, 0) }
    else s
  { s1 with lastTap := now }

/-- A gesture-engine event, dispatching to the four `App.tsx` handlers. -/
inductive GEvent where
  | touchStart (t : TouchSample)
  | touchMove (t : TouchSample)
  | touchEnd
  | tap (now : ℚ)
deriving DecidableEq, Repr

/-- One step of the gesture engine. -/
def stepG (s : GestureState) : GEvent → GestureState
  | .touchStart t => handleTouchStart s t
  | .touchMove t => handleTouchMove s t
  | .touchEnd => handleTouchEnd s
  | .tap now => handleDoubleTap s now

/-- Run the gesture engine over a sequence of events. -/
def runG (s : GestureState) (es : List GEvent) : GestureState :=
  es.foldl stepG s

/-- An event is guarded when any two-point move happens with an
established (positive) pinch baseline distance. -/
def guardOK (s : GestureState) : GEvent → Bool
  | .touchMove (.twoPoint _) => decide (0 < s.pinchStartDist)
  | _ => true

/-- A trace is guarded when every event in it is guarded in the state at
which it fires. -/
def guardedB (s : GestureState) : List GEvent → Bool
  | [] => true
  | e :: es => guardOK s e && guardedB (stepG s e) es

/-- The scale invariant: the current scale and the captured baseline scale
are finite and within `[1, 5]`. -/
def ScaleInv (s : GestureState) : Prop :=
  (∃ q : ℚ, s.scale = .num q ∧ 1 ≤ q ∧ q ≤ 5) ∧
  (∃ q : ℚ, s.pinchStartScale = .num q ∧ 1 ≤ q ∧ q ≤ 5)

/-! ## Image data model (`lib/images.ts` and `App.tsx`) -/

/-- `ImageRecord` from `lib/images.ts`. -/
structure ImageRecord where
  id : String
  category : String
  storage_path : String
  url : String
  created_at : String
deriving DecidableEq, Repr

/-- `CategoryData` from `App.tsx`. -/
structure CategoryData where
  id : String
  name : String
  icon : String
  color : String
  gradient : String
  images : List ImageRecord
deriving DecidableEq, Repr

/-- The static `CATEGORIES` constant from `App.tsx`. -/
def CATEGORIES : List CategoryData :=
  [{ id := "campo", name := "Servicio del Campo", icon := "🌾",
     color := "#00b894",
     gradient := "linear-gradient(135deg, #00b894, #00cec9)", images := [] },
   { id := "anuncios", name := "Anuncios del Mes", icon := "📢",
     color := "#e17055",
     gradient := "linear-gradient(135deg, #e17055, #fdcb6e)", images := [] },
   { id := "reuniones", name := "Reuniones", icon := "🤝",
     color := "#6c5ce7",
     gradient := "linear-gradient(135deg, #6c5ce7, #a29bfe)", images := [] },
   { id := "limpieza", name := "Limpieza", icon := "🧹",
     color := "#0984e3",
     gradient := "linear-gradient(135deg, #0984e3, #74b9ff)", images := [] }]

/-- A remote call issued by the pipeline against the Supabase storage or
database collaborators. -/
inductive RemoteCall where
  | storagePut (path : String)
  | dbInsert (category path url : String)
  | storageRemove (path : String)
  | dbDelete (id : String)
deriving DecidableEq, Repr

/-! ## Image compression stage (`compressImage` in `lib/images.ts`) -/

/-- `MAX_SIZE` from `lib/images.ts`. -/
def MAX_SIZE : ℕ := 1200

/-- The dimension computation of `compressImage`: if either dimension
exceeds `MAX_SIZE`, the larger one becomes `MAX_SIZE` and the other is
scaled by the same ratio with `Math.round` (round half up, which is
the Mathlib `round` on `ℚ`). -/
def compressDims (width height : ℕ) : ℕ × ℕ :=
  if width > MAX_SIZE ∨ height > MAX_SIZE then
    if width > height then
      (MAX_SIZE, (round ((height : ℚ) * ((MAX_SIZE : ℚ) / (width : ℚ)))).toNat)
    else
      ((round ((width : ℚ) * ((MAX_SIZE : ℚ) / (height : ℚ)))).toNat, MAX_SIZE)
  else (width, height)

/-! ## Upload pipeline (`uploadImage` and `handleFileChange`) -/

/-- One selected file together with the responses of the environment to the
effectful steps of the pipeline: its declared MIME `type`, the
`crypto.randomUUID()` value used to name the blob, the outcome of
`compressImage` (which rejects with `Failed to load image` or
`Compression failed`), the outcome of the storage upload, the public URL
returned for the blob, and the outcome of the metadata insert (which, on
success, returns the server-side row). -/
structure FileSpec where
  type : String
  uuid : String
  compressResult : Except String Unit
  storageResult : Except String Unit
  publicUrl : String
  insertResult : Except String ImageRecord

/-- The storage filename generated by `uploadImage`:
`` `${category}/${crypto.randomUUID()}.webp` ``. -/
def uploadFilename (category : String) (f : FileSpec) : String :=
  category ++ "/" ++ f.uuid ++ ".webp"

/-- `uploadImage` from `lib/images.ts`, as a function of the outcomes chosen
by the environment: compress, then storage upload, then metadata insert, throwing at
the first failure.  Returns the remote calls issued in order, and the
resulting record or error. -/
def uploadImage (category : String) (f : FileSpec) :
    List RemoteCall × Except String ImageRecord :=
  match f.compressResult with
  | .error e => ([], .error e)
  | .ok _ =>
    let filename := uploadFilename category f
    match f.storageResult with
    | .error e => ([.storagePut filename], .error e)
    | .ok _ =>
      match f.insertResult with
      | .error e =>
          ([.storagePut filename, .dbInsert category filename f.publicUrl],
           .error e)
      | .ok record =>
          ([.storagePut filename, .dbInsert category filename f.publicUrl],
           .ok record)

/-- The `setCategories` update of `handleFileChange` after a successful
upload: prepend the new record to the category whose id matches. -/
def prependTo (catId : String) (record : ImageRecord)
    (cats : List CategoryData) : List CategoryData :=
  cats.map fun cat =>
    if cat.id = catId then { cat with images := record :: cat.images } else cat

/-- The body of the `try` block of `handleFileChange`: iterate over the selected
files; a file whose declared type does not start with `image/` is skipped
with `continue`; otherwise `uploadImage` is awaited and, on success, the
record is prepended to the active category.  A thrown error escapes the
loop and is caught once, setting the error message; files after the
failing one are never processed.  Returns the resulting categories, all
remote calls issued in order, and the surfaced error, if any. -/
def processFiles (catId : String) :
    List FileSpec → List CategoryData →
      List CategoryData × List RemoteCall × Option String
  | [], cats => (cats, [], none)
  | f :: rest, cats =>
    if f.type.startsWith ("image/") then
      match uploadImage catId f with
      | (calls, .ok record) =>
          let next := processFiles catId rest (prependTo catId record cats)
          (next.1, calls ++ next.2.1, next.2.2)
      | (calls, .error msg) => (cats, calls, some msg)
    else processFiles catId rest cats

/-- `handleFileChange` from `App.tsx`: does nothing when no category is
active, otherwise processes the selected files against the active
category. -/
def handleFileChange (activeCategory : Option String) (files : List FileSpec)
    (cats : List CategoryData) :
    List CategoryData × List RemoteCall × Option String :=
  match activeCategory with
  | none => (cats, [], none)
  | some catId => processFiles catId files cats

/-! ## Delete pipeline (`deleteImage` and `handleDeleteImage`) -/

/-- `deleteImage` from `lib/images.ts`: removes the blob at
`record.storage_path` from storage, throwing on failure, then deletes the
metadata row by `record.id`, throwing on failure.  Returns the remote
calls issued in order and the outcome. -/
def deleteImage (record : ImageRecord)
    (storageResult dbResult : Except String Unit) :
    List RemoteCall × Except String Unit :=
  match storageResult with
  | .error e => ([.storageRemove record.storage_path], .error e)
  | .ok _ =>
    match dbResult with
    | .error e =>
        ([.storageRemove record.storage_path, .dbDelete record.id], .error e)
    | .ok _ =>
        ([.storageRemove record.storage_path, .dbDelete record.id], .ok ())

/-- The `setCategories` update of `handleDeleteImage` after a successful
delete: in the matching category, keep only images whose id differs from
that of the deleted record. -/
def removeRecord (categoryId : String) (record : ImageRecord)
    (cats : List CategoryData) : List CategoryData :=
  cats.map fun cat =>
    if cat.id = categoryId then
      { cat with images := cat.images.filter fun img => img.id != record.id }
    else cat

/-- `handleDeleteImage` from `App.tsx`: awaits `deleteImage`; on success it
removes the record from the sequence of the matching category, on failure it
leaves the categories untouched and surfaces the error message. -/
def handleDeleteImage (categoryId : String) (record : ImageRecord)
    (storageResult dbResult : Except String Unit)
    (cats : List CategoryData) :
    List CategoryData × List RemoteCall × Option String :=
  match deleteImage record storageResult dbResult with
  | (calls, .ok _) => (removeRecord categoryId record cats, calls, none)
  | (calls, .error e) => (cats, calls, some e)

/-! ## Initial load (`load` in the mount effect of `App.tsx`) -/

/-- `Promise.all` over a list of already-settled outcomes: succeeds with
the list of values when all succeed, otherwise rejects with the first
error in order. -/
def promiseAll : List (Except String (List ImageRecord)) →
    Except String (List (List ImageRecord))
  | [] => .ok []
  | .error e :: _ => .error e
  | .ok a :: rest => (promiseAll rest).map (a :: ·)

/-- The `load` function of the mount effect: fetches the records of every category via `Promise.all`; on success it rebuilds the categories from
`CATEGORIES` with the fetched sequences, on failure it leaves the
categories untouched (still `CATEGORIES`, all empty) and sets the single
aggregate error message.  `outcomes` lists, in `CATEGORIES` order, the
outcome of `fetchImagesByCategory` for each category. -/
def load (outcomes : List (Except String (List ImageRecord))) :
    List CategoryData × Option String :=
  match promiseAll outcomes with
  | .ok results =>
      (List.zipWith (fun cat imgs => { cat with images := imgs })
        CATEGORIES results, none)
  | .error e => (CATEGORIES, some e)

/-- The image sequence of the category with the given id, as found by
`categories.find((c) => c.id === activeCategory)` in `App.tsx`. -/
def imagesOf (cats : List CategoryData) (catId : String) :
    Option (List ImageRecord) :=
  (cats.find? fun c => c.id == catId).map (·.images)

/-! ## Basic facts about the JavaScript numeric operations -/

theorem jsMul_num (a b : ℚ) : jsMul (.num a) (.num b) = .num (a * b) := rfl

theorem jsDiv_num_of_ne (a b : ℚ) (hb : b ≠ 0) :
    jsDiv (.num a) (.num b) = .num (a / b) := by
  simp [jsDiv, hb]

theorem jsMax_num (a b : ℚ) : jsMax (.num a) (.num b) = .num (max a b) := by
  show (if jsLt (.num a) (.num b) then JSNum.num b else .num a) = .num (max a b)
  rcases lt_or_le a b with h | h
  · simp [jsLt, h, max_eq_right h.le]
  · simp [jsLt, not_lt.mpr h, max_eq_left h]

theorem jsMin_num (a b : ℚ) : jsMin (.num a) (.num b) = .num (min a b) := by
  show (if jsLt (.num a) (.num b) then JSNum.num a else .num b) = .num (min a b)
  rcases lt_or_le a b with h | h
  · simp [jsLt, h, min_eq_left h.le]
  · simp [jsLt, not_lt.mpr h, min_eq_right h]

theorem jsLe_num_one : jsLe (.num 1) (.num 1) = true := by
  simp [jsLe]

/-- The scale published by a two-point move with a finite baseline scale
and a positive baseline distance. -/
theorem handleTouchMove_twoPoint_scale (s : GestureState) (d q : ℚ)
    (hq : s.pinchStartScale = .num q) (hd : 0 < s.pinchStartDist) :
    (handleTouchMove s (.twoPoint d)).scale
      = .num (min 5 (max 1 (q * (d / s.pinchStartDist)))) := by
  have hne : s.pinchStartDist ≠ 0 := ne_of_gt hd
  have h1 : jsMin (.num 5)
      (jsMax (.num 1)
        (jsMul s.pinchStartScale (jsDiv (.num d) (.num s.pinchStartDist))))
      = .num (min 5 (max 1 (q * (d / s.pinchStartDist)))) := by
    rw [hq, jsDiv_num_of_ne _ _ hne, jsMul_num, jsMax_num, jsMin_num]
  simp only [handleTouchMove, h1]
  split <;> rfl

/-- One guarded step preserves the scale invariant. -/
theorem scaleInv_step (s : GestureState) (e : GEvent)
    (h : ScaleInv s) (hg : guardOK s e = true) : ScaleInv (stepG s e) := by
  obtain ⟨⟨qs, hqs, hqs1, hqs5⟩, ⟨qp, hqp, hqp1, hqp5⟩⟩ := h
  cases e with
  | touchStart t =>
    cases t with
    | twoPoint d =>
        exact ⟨⟨qs, hqs, hqs1, hqs5⟩, ⟨qs, hqs, hqs1, hqs5⟩⟩
    | onePoint p =>
        have hsc : (stepG s (.touchStart (.onePoint p))).scale = s.scale := by
          simp only [stepG, handleTouchStart]
          split <;> rfl
        have hps : (stepG s (.touchStart (.onePoint p))).pinchStartScale
            = s.pinchStartScale := by
          simp only [stepG, handleTouchStart]
          split <;> rfl
        exact ⟨⟨qs, by rw [hsc, hqs], hqs1, hqs5⟩,
               ⟨qp, by rw [hps, hqp], hqp1, hqp5⟩⟩
    | other => exact ⟨⟨qs, hqs, hqs1, hqs5⟩, ⟨qp, hqp, hqp1, hqp5⟩⟩
  | touchMove t =>
    cases t with
    | twoPoint d =>
        have hd : 0 < s.pinchStartDist := by
          have := hg
          simp only [guardOK, decide_eq_true_eq] at this
          exact this
        have hsc := handleTouchMove_twoPoint_scale s d qp hqp hd
        have hps : (stepG s (.touchMove (.twoPoint d))).pinchStartScale
            = s.pinchStartScale := by
          simp only [stepG, handleTouchMove]
          split <;> rfl
        refine ⟨⟨min 5 (max 1 (qp * (d / s.pinchStartDist))), hsc, ?_, ?_⟩,
                ⟨qp, by rw [hps, hqp], hqp1, hqp5⟩⟩
        · exact le_min (by norm_num) (le_max_left 1 _)
        · exact min_le_left 5 _
    | onePoint p =>
        have hsc : (stepG s (.touchMove (.onePoint p))).scale = s.scale := by
          simp only [stepG, handleTouchMove]
          split <;> rfl
        have hps : (stepG s (.touchMove (.onePoint p))).pinchStartScale
            = s.pinchStartScale := by
          simp only [stepG, handleTouchMove]
          split <;> rfl
        exact ⟨⟨qs, by rw [hsc, hqs], hqs1, hqs5⟩,
               ⟨qp, by rw [hps, hqp], hqp1, hqp5⟩⟩
    | other => exact ⟨⟨qs, hqs, hqs1, hqs5⟩, ⟨qp, hqp, hqp1, hqp5⟩⟩
  | touchEnd =>
    constructor
    · simp only [stepG, handleTouchEnd]
      split
      · exact ⟨1, rfl, le_refl 1, by norm_num⟩
      · exact ⟨qs, hqs, hqs1, hqs5⟩
    · have hps : (stepG s .touchEnd).pinchStartScale = s.pinchStartScale := by
        simp only [stepG, handleTouchEnd]
        split <;> rfl
      exact ⟨qp, by rw [hps, hqp], hqp1, hqp5⟩
  | tap now =>
    constructor
    · simp only [stepG, handleDoubleTap]
      split
      · split
        · exact ⟨1, rfl, le_refl 1, by norm_num⟩
        · exact ⟨5/2, rfl, by norm_num, by norm_num⟩
      · exact ⟨qs, hqs, hqs1, hqs5⟩
    · have hps : (stepG s (.tap now)).pinchStartScale = s.pinchStartScale := by
        simp only [stepG, handleDoubleTap]
        split
        · split <;> rfl
        · rfl
      exact ⟨qp, by rw [hps, hqp], hqp1, hqp5⟩

/-! ## Claim theorems: gesture engine -/

/-- C3: the claim says that a two-point move with a zero or not yet
established pinch baseline distance is a no-op that never publishes a
scale update nor produces a non-finite scale.  The code has no such
guard: from the initial state (baseline distance 0, never established), a
two-point move with coincident touches (current distance 0) computes
`0 / 0` and publishes the non-finite scale `NaN`, and a two-point move
with current distance 100 computes `100 / 0 = Infinity` and publishes
scale 5.  This theorem evaluates the code at those failing inputs. -/
theorem C3_zero_baseline_publishes_nan :
    initState.pinchStartDist = 0 ∧
    (handleTouchMove initState (.twoPoint 0)).scale = .nan ∧
    handleTouchMove initState (.twoPoint 0) ≠ initState ∧
    (handleTouchMove initState (.twoPoint 100)).scale = .num 5 ∧
    handleTouchMove initState (.twoPoint 100) ≠ initState := by
  refine ⟨rfl, by with_unfolding_all rfl, by with_unfolding_all decide,
    by with_unfolding_all rfl, by with_unfolding_all decide⟩

/-- C4: a two-point move with an established (positive) baseline distance
and a finite baseline scale publishes exactly
`clamp(baselineScale * (currentDistance / baselineDistance), 1, 5)`, i.e.
`min 5 (max 1 ...)`; under that guard the scale invariant (finite and
within `[1,5]`) is preserved along every event sequence; and concretely a
pinch from distance 100 to 200 at baseline scale 1 yields scale 2, while
continuing to distance 600 clamps at 5. -/
theorem C4_pinch_scale_clamped :
    (∀ (s : GestureState) (d q : ℚ),
        s.pinchStartScale = .num q → 0 < s.pinchStartDist →
        (handleTouchMove s (.twoPoint d)).scale
          = .num (min 5 (max 1 (q * (d / s.pinchStartDist))))) ∧
    (∀ (s : GestureState) (es : List GEvent),
        ScaleInv s → guardedB s es = true → ScaleInv (runG s es)) ∧
    (runG initState
        [.touchStart (.twoPoint 100), .touchMove (.twoPoint 200)]).scale
      = .num 2 ∧
    (runG initState
        [.touchStart (.twoPoint 100), .touchMove (.twoPoint 200),
         .touchMove (.twoPoint 600)]).scale = .num 5 := by
  refine ⟨handleTouchMove_twoPoint_scale, ?_,
    by with_unfolding_all rfl, by with_unfolding_all rfl⟩
  intro s es
  induction es generalizing s with
  | nil => exact fun h _ => h
  | cons e es ih =>
      intro h hg
      simp only [guardedB, Bool.and_eq_true] at hg
      exact ih _ (scaleInv_step s e h hg.1) hg.2

/-- C4 witness: the clamp formula evaluated at a concrete state with
baseline distance 100 and baseline scale 1, moving to distance 200. -/
theorem C4_pinch_scale_clamped_witness :
    (handleTouchMove
        { initState with pinchStartDist := 100, pinchStartScale := .num 1 }
        (.twoPoint 200)).scale = .num (min 5 (max 1 (1 * (200 / 100)))) :=
  C4_pinch_scale_clamped.1
    { initState with pinchStartDist := 100, pinchStartScale := .num 1 }
    200 1 rfl (by norm_num)

/-- C5: scale 1 forces a pan offset of `(0,0)`: after `handleTouchEnd` the
transform is fully reset whenever the scale ends at or below 1 (so no
gesture ends with scale at or below 1 and a stale pan), and a two-point
move whose clamped scale equals 1 also publishes pan `(0,0)`. -/
theorem C5_scale_one_forces_origin :
    (∀ s : GestureState, jsLe (handleTouchEnd s).scale (.num 1) = true →
        (handleTouchEnd s).position = (0, 0)) ∧
    (∀ s : GestureState, (handleTouchEnd s).scale = .num 1 →
        (handleTouchEnd s).position = (0, 0)) ∧
    (∀ (s : GestureState) (d : ℚ),
        (handleTouchMove s (.twoPoint d)).scale = .num 1 →
        (handleTouchMove s (.twoPoint d)).position = (0, 0)) := by
  have hEnd : ∀ s : GestureState, jsLe (handleTouchEnd s).scale (.num 1) = true →
      (handleTouchEnd s).position = (0, 0) := by
    intro s h
    revert h
    simp only [handleTouchEnd]
    split
    · intro _
      rfl
    · intro h
      exact absurd h (by assumption)
  refine ⟨hEnd, ?_, ?_⟩
  · intro s h
    exact hEnd s (by rw [h]; exact jsLe_num_one)
  · intro s d
    simp only [handleTouchMove]
    split
    · intro _
      rfl
    · next hc =>
        intro h
        dsimp only at h
        rw [h] at hc
        exact absurd jsLe_num_one hc

/-- C5 witness: ending a gesture at scale 1/2 resets the pan to the
origin. -/
theorem C5_scale_one_forces_origin_witness :
    (handleTouchEnd
        { initState with scale := .num (1/2), position := (3, 4) }).position
      = (0, 0) :=
  C5_scale_one_forces_origin.1
    { initState with scale := .num (1/2), position := (3, 4) }
    (by with_unfolding_all rfl)

/-- C9: a tap updates `lastTap` to `now` unconditionally; when the
previous tap is less than 300ms old the transform toggles (scale above 1
resets to `(1,(0,0))`, otherwise scale becomes 2.5 with pan `(0,0)`),
and otherwise the transform is untouched.  Concretely, from the initial
state two taps 250ms apart toggle exactly once (scale 1 to 2.5) and two
taps 350ms apart do not toggle. -/
theorem C9_double_tap_toggle :
    (∀ (s : GestureState) (now : ℚ),
        (handleDoubleTap s now).lastTap = now) ∧
    (∀ (s : GestureState) (now : ℚ), now - s.lastTap < 300 →
        jsLt (.num 1) s.scale = true →
        (handleDoubleTap s now).scale = .num 1 ∧
        (handleDoubleTap s now).position = (0, 0)) ∧
    (∀ (s : GestureState) (now : ℚ), now - s.lastTap < 300 →
        jsLt (.num 1) s.scale = false →
        (handleDoubleTap s now).scale = .num (5/2) ∧
        (handleDoubleTap s now).position = (0, 0)) ∧
    (∀ (s : GestureState) (now : ℚ), ¬ now - s.lastTap < 300 →
        (handleDoubleTap s now).scale = s.scale ∧
        (handleDoubleTap s now).position = s.position) ∧
    (runG initState [.tap 1000, .tap 1250]).scale = .num (5/2) ∧
    (runG initState [.tap 1000, .tap 1250]).position = (0, 0) ∧
    (runG initState [.tap 1000, .tap 1350]).scale = .num 1 ∧
    (runG initState [.tap 1000, .tap 1350]).position = (0, 0) := by
  refine ⟨?_, ?_, ?_, ?_,
    by with_unfolding_all rfl, by with_unfolding_all rfl,
    by with_unfolding_all rfl, by with_unfolding_all rfl⟩
  · intro s now
    simp only [handleDoubleTap]
  · intro s now h300 hscale
    constructor <;> simp [handleDoubleTap, h300, hscale, resetZoom]
  · intro s now h300 hscale
    constructor <;> simp [handleDoubleTap, h300, hscale]
  · intro s now h300
    constructor <;> simp [handleDoubleTap, h300]

/-- C9 witness: a second tap 100ms after the first, at scale 1, zooms to
2.5 with pan `(0,0)`. -/
theorem C9_double_tap_toggle_witness :
    (handleDoubleTap initState 100).scale = .num (5/2) ∧
    (handleDoubleTap initState 100).position = (0, 0) :=
  C9_double_tap_toggle.2.2.1 initState 100 (by norm_num [initState])
    (by with_unfolding_all rfl)

/-! ## Claim theorems: compression stage -/

/-- `Math.round` of a rational at most 1200 is at most 1200, after
truncating to `ℕ`. -/
theorem round_toNat_le_max_size {x : ℚ} (hx : x ≤ 1200) :
    (round x).toNat ≤ 1200 := by
  have h1 : round x ≤ 1200 := by
    rw [round_eq]
    have h2 : ⌊x + 1 / 2⌋ < 1201 := Int.floor_lt.mpr (by push_cast; linarith)
    omega
  omega

/-- C8: when `max(W,H) <= 1200` the dimensions are unchanged; when
`max(W,H) > 1200` the output maximum dimension is exactly 1200 and the
other dimension is the input scaled by the same ratio, rounded to the
nearest integer; concretely a 4000 by 2000 input yields `(1200, 600)`,
an exact 2:1 aspect ratio. -/
theorem C8_compress_dims_bound :
    (∀ w h : ℕ, max w h ≤ MAX_SIZE → compressDims w h = (w, h)) ∧
    (∀ w h : ℕ, MAX_SIZE < max w h →
        max (compressDims w h).1 (compressDims w h).2 = MAX_SIZE ∧
        (h < w → compressDims w h
            = (MAX_SIZE,
               (round ((h : ℚ) * ((MAX_SIZE : ℚ) / (w : ℚ)))).toNat)) ∧
        (w ≤ h → compressDims w h
            = ((round ((w : ℚ) * ((MAX_SIZE : ℚ) / (h : ℚ)))).toNat,
               MAX_SIZE))) ∧
    compressDims 4000 2000 = (1200, 600) ∧
    (compressDims 4000 2000).1 = 2 * (compressDims 4000 2000).2 := by
  refine ⟨?_, ?_, by with_unfolding_all rfl, by with_unfolding_all rfl⟩
  · intro w h hmax
    have hcond : ¬ (w > MAX_SIZE ∨ h > MAX_SIZE) := by
      simp only [max_le_iff] at hmax
      omega
    simp [compressDims, hcond]
  · intro w h hmax
    have hcond : w > MAX_SIZE ∨ h > MAX_SIZE := by
      rcases max_cases w h with ⟨he, _⟩ | ⟨he, _⟩
      · exact Or.inl (he ▸ hmax)
      · exact Or.inr (he ▸ hmax)
    by_cases hwh : w > h
    · have hw : MAX_SIZE < w := by
        rcases hcond with hc | hc
        · exact hc
        · omega
      have hwq : (0 : ℚ) < (w : ℚ) := by
        exact_mod_cast (show 0 < w by omega)
      have hle : (h : ℚ) * ((MAX_SIZE : ℚ) / (w : ℚ)) ≤ 1200 := by
        have hhw : (h : ℚ) ≤ (w : ℚ) := by exact_mod_cast hwh.le
        have hnn : (0 : ℚ) ≤ (MAX_SIZE : ℚ) / (w : ℚ) := by positivity
        have hcancel : (w : ℚ) * ((MAX_SIZE : ℚ) / (w : ℚ)) = 1200 := by
          rw [show ((MAX_SIZE : ℕ) : ℚ) = 1200 by norm_num [MAX_SIZE]]
          field_simp
        calc (h : ℚ) * ((MAX_SIZE : ℚ) / (w : ℚ))
            ≤ (w : ℚ) * ((MAX_SIZE : ℚ) / (w : ℚ)) :=
              mul_le_mul_of_nonneg_right hhw hnn
          _ = 1200 := hcancel
      have hout : compressDims w h
          = (MAX_SIZE, (round ((h : ℚ) * ((MAX_SIZE : ℚ) / (w : ℚ)))).toNat) := by
        simp [compressDims, hcond, hwh]
      refine ⟨?_, fun _ => hout, fun hc => absurd hwh (not_lt.mpr hc)⟩
      rw [hout]
      exact max_eq_left
        (by simpa [MAX_SIZE] using round_toNat_le_max_size hle)
    · have hh : MAX_SIZE < h := by
        rcases hcond with hc | hc
        · omega
        · exact hc
      have hhq : (0 : ℚ) < (h : ℚ) := by
        exact_mod_cast (show 0 < h by omega)
      have hle : (w : ℚ) * ((MAX_SIZE : ℚ) / (h : ℚ)) ≤ 1200 := by
        have hwhq : (w : ℚ) ≤ (h : ℚ) := by
          exact_mod_cast not_lt.mp hwh
        have hnn : (0 : ℚ) ≤ (MAX_SIZE : ℚ) / (h : ℚ) := by positivity
        have hcancel : (h : ℚ) * ((MAX_SIZE : ℚ) / (h : ℚ)) = 1200 := by
          rw [show ((MAX_SIZE : ℕ) : ℚ) = 1200 by norm_num [MAX_SIZE]]
          field_simp
        calc (w : ℚ) * ((MAX_SIZE : ℚ) / (h : ℚ))
            ≤ (h : ℚ) * ((MAX_SIZE : ℚ) / (h : ℚ)) :=
              mul_le_mul_of_nonneg_right hwhq hnn
          _ = 1200 := hcancel
      have hout : compressDims w h
          = ((round ((w : ℚ) * ((MAX_SIZE : ℚ) / (h : ℚ)))).toNat, MAX_SIZE) := by
        simp [compressDims, hcond, hwh]
      refine ⟨?_, fun hc => absurd hc hwh, fun _ => hout⟩
      rw [hout]
      exact max_eq_right
        (by simpa [MAX_SIZE] using round_toNat_le_max_size hle)

/-- C8 witness: the downscale branch applied to the concrete 4000 by 2000
input bounds the output at 1200. -/
theorem C8_compress_dims_bound_witness :
    max (compressDims 4000 2000).1 (compressDims 4000 2000).2 = MAX_SIZE :=
  (C8_compress_dims_bound.2.1 4000 2000 (by norm_num [MAX_SIZE])).1

/-! ## Concrete scenario data for the pipeline claims -/

/-- A concrete record as the metadata store returns it for file A. -/
def recA : ImageRecord where
  id := "a1"
  category := "campo"
  storage_path := "campo/ua.webp"
  url := "https://cdn/a1"
  created_at := "2026-01-01T10:00:00Z"

/-- A concrete record as the metadata store returns it for file B. -/
def recB : ImageRecord where
  id := "b1"
  category := "campo"
  storage_path := "campo/ub.webp"
  url := "https://cdn/b1"
  created_at := "2026-01-02T10:00:00Z"

/-- File A: an image file whose whole pipeline succeeds. -/
def fileA : FileSpec where
  type := "image/png"
  uuid := "ua"
  compressResult := .ok ()
  storageResult := .ok ()
  publicUrl := "https://cdn/a1"
  insertResult := .ok recA

/-- File B: an image file whose whole pipeline succeeds. -/
def fileB : FileSpec where
  type := "image/jpeg"
  uuid := "ub"
  compressResult := .ok ()
  storageResult := .ok ()
  publicUrl := "https://cdn/b1"
  insertResult := .ok recB

/-- A file with an image media type that fails to decode: `compressImage`
rejects with the `Failed to load image` error of its `img.onerror`
handler. -/
def fileDecodeBad : FileSpec where
  type := "image/png"
  uuid := "ux"
  compressResult := .error ("Failed to load image")
  storageResult := .ok ()
  publicUrl := "https://cdn/x"
  insertResult := .error ("unreached")

/-- A file whose declared media type is not an image type. -/
def filePdf : FileSpec where
  type := "application/pdf"
  uuid := "up"
  compressResult := .ok ()
  storageResult := .ok ()
  publicUrl := "https://cdn/p"
  insertResult := .error ("unreached")

/-- Categories after uploading file A into `campo`. -/
def afterA : List CategoryData :=
  (processFiles ("campo") [fileA] CATEGORIES).1

/-- Categories after then uploading file B into `campo`. -/
def afterAB : List CategoryData :=
  (processFiles ("campo") [fileB] afterA).1

/-- Categories after then deleting record A, both remote deletes
succeeding. -/
def afterDeleteA : List CategoryData :=
  (handleDeleteImage ("campo") recA (.ok ()) (.ok ()) afterAB).1

/-! ## Claim theorems: delete pipeline -/

/-- C1: `deleteImage` always issues the storage blob delete at
`record.storage_path` first, and the metadata row delete by `record.id`
second and only when the storage delete succeeded; on success
`handleDeleteImage` removes the record from the matching category by
identifier; on failure of either remote step the categories are returned
unchanged and the error message is surfaced. -/
theorem C1_delete_order_and_rollback :
    ∀ (categoryId : String) (record : ImageRecord)
      (sr dr : Except String Unit) (cats : List CategoryData),
      (deleteImage record sr dr).1.head?
          = some (.storageRemove record.storage_path) ∧
      (sr = .ok () → (deleteImage record sr dr).1
          = [.storageRemove record.storage_path, .dbDelete record.id]) ∧
      (∀ e, sr = .error e →
          (deleteImage record sr dr).1 = [.storageRemove record.storage_path] ∧
          handleDeleteImage categoryId record sr dr cats
            = (cats, [.storageRemove record.storage_path], some e)) ∧
      (∀ e, sr = .ok () → dr = .error e →
          handleDeleteImage categoryId record sr dr cats
            = (cats,
               [.storageRemove record.storage_path, .dbDelete record.id],
               some e)) ∧
      (sr = .ok () → dr = .ok () →
          handleDeleteImage categoryId record sr dr cats
            = (cats.map fun cat =>
                 if cat.id = categoryId then
                   { cat with
                     images := cat.images.filter fun img => img.id != record.id }
                 else cat,
               [.storageRemove record.storage_path, .dbDelete record.id],
               none)) := by
  intro categoryId record sr dr cats
  refine ⟨?_, ?_, ?_, ?_, ?_⟩
  · cases sr with
    | error e => rfl
    | ok u => cases u; cases dr with
      | error e => rfl
      | ok u2 => cases u2; rfl
  · intro hsr
    subst hsr
    cases dr with
    | error e => rfl
    | ok u => cases u; rfl
  · intro e hsr
    subst hsr
    exact ⟨rfl, rfl⟩
  · intro e hsr hdr
    subst hsr; subst hdr
    rfl
  · intro hsr hdr
    subst hsr; subst hdr
    simp [handleDeleteImage, deleteImage, removeRecord]

/-- C1 witness: a storage-step failure on record A leaves the categories
untouched, issues no metadata delete, and surfaces the error. -/
theorem C1_delete_order_and_rollback_witness :
    (deleteImage recA (.error ("boom")) (.ok ())).1
        = [.storageRemove recA.storage_path] ∧
    handleDeleteImage ("campo") recA (.error ("boom")) (.ok ()) CATEGORIES
        = (CATEGORIES, [.storageRemove recA.storage_path], some ("boom")) :=
  (C1_delete_order_and_rollback ("campo") recA (.error ("boom")) (.ok ())
    CATEGORIES).2.2.1 ("boom") rfl

/-! ## Claim theorems: upload prepends to the target category only -/

/-- Prepending into the target category changes the found sequence of that
category exactly by consing the record. -/
theorem imagesOf_prependTo (catId : String) (record : ImageRecord) :
    ∀ (cats : List CategoryData) (imgs : List ImageRecord),
      imagesOf cats catId = some imgs →
      imagesOf (prependTo catId record cats) catId = some (record :: imgs) := by
  intro cats
  induction cats with
  | nil => intro imgs h; simp [imagesOf] at h
  | cons c cs ih =>
      intro imgs h
      by_cases hc : c.id = catId
      · unfold imagesOf at h
        rw [@List.find?_cons_of_pos CategoryData
          (fun x : CategoryData => x.id == catId) c cs (by simp [hc])] at h
        simp only [Option.map_some', Option.some.injEq] at h
        unfold imagesOf prependTo
        rw [List.map_cons, if_pos hc,
          @List.find?_cons_of_pos CategoryData
            (fun x : CategoryData => x.id == catId)
            { c with images := record :: c.images } _ (by simp [hc])]
        simp [h]
      · unfold imagesOf at h
        rw [@List.find?_cons_of_neg CategoryData
          (fun x : CategoryData => x.id == catId) c cs (by simp [hc])] at h
        unfold imagesOf prependTo
        rw [List.map_cons, if_neg hc,
          @List.find?_cons_of_neg CategoryData
            (fun x : CategoryData => x.id == catId) c _ (by simp [hc])]
        exact ih imgs h

/-- Prepending into the target category leaves the lookup of every other
category id untouched, fields included. -/
theorem find?_prependTo_ne (catId other : String) (record : ImageRecord)
    (hne : other ≠ catId) :
    ∀ cats : List CategoryData,
      (prependTo catId record cats).find? (fun c => c.id == other)
        = cats.find? (fun c => c.id == other) := by
  intro cats
  induction cats with
  | nil => rfl
  | cons c cs ih =>
      by_cases hc : c.id = other
      · have hcat : ¬ c.id = catId := fun h => hne (by rw [← hc, h])
        simp only [prependTo, List.map_cons, if_neg hcat]
        rw [@List.find?_cons_of_pos CategoryData
            (fun x : CategoryData => x.id == other) c
            (List.map _ cs) (by simp [hc]),
          @List.find?_cons_of_pos CategoryData
            (fun x : CategoryData => x.id == other) c cs (by simp [hc])]
      · simp only [prependTo, List.map_cons]
        rw [@List.find?_cons_of_neg CategoryData
            (fun x : CategoryData => x.id == other)
            (if c.id = catId then
              { c with images := record :: c.images } else c)
            (List.map _ cs) (by split <;> simp [hc]),
          @List.find?_cons_of_neg CategoryData
            (fun x : CategoryData => x.id == other) c cs (by simp [hc])]
        exact ih

/-- C2: a successful upload prepends exactly one record to the matching
category and leaves every other category untouched: the list keeps its
length, each position is rewritten exactly by the conditional prepend, the
target sequence gains the record at the front, and the lookup of any
other id is unchanged.  Concretely, `campo` starts empty, uploading A
then B yields `[B, A]`, deleting A yields `[B]`, and the other three
categories stay empty throughout. -/
theorem C2_upload_prepends_target_only :
    (∀ (catId : String) (record : ImageRecord) (cats : List CategoryData),
        (prependTo catId record cats).length = cats.length ∧
        (∀ (i : ℕ) (cat : CategoryData), cats[i]? = some cat →
            (prependTo catId record cats)[i]?
              = some (if cat.id = catId then
                  { cat with images := record :: cat.images } else cat)) ∧
        (∀ imgs, imagesOf cats catId = some imgs →
            imagesOf (prependTo catId record cats) catId
              = some (record :: imgs)) ∧
        (∀ other, other ≠ catId →
            (prependTo catId record cats).find? (fun c => c.id == other)
              = cats.find? (fun c => c.id == other))) ∧
    imagesOf CATEGORIES ("campo") = some [] ∧
    imagesOf afterA ("campo") = some [recA] ∧
    imagesOf afterAB ("campo") = some [recB, recA] ∧
    imagesOf afterDeleteA ("campo") = some [recB] ∧
    imagesOf afterAB ("anuncios") = some [] ∧
    imagesOf afterAB ("reuniones") = some [] ∧
    imagesOf afterAB ("limpieza") = some [] := by
  refine ⟨?_, by with_unfolding_all rfl, by with_unfolding_all rfl,
    by with_unfolding_all rfl, by with_unfolding_all rfl,
    by with_unfolding_all rfl, by with_unfolding_all rfl,
    by with_unfolding_all rfl⟩
  intro catId record cats
  refine ⟨by simp [prependTo], ?_, imagesOf_prependTo catId record cats,
    fun other hne => find?_prependTo_ne catId other record hne cats⟩
  intro i cat h
  simp [prependTo, List.getElem?_map, h]

/-- C2 witness: prepending record A into `campo` on the static categories
changes the `campo` sequence to `[A]`. -/
theorem C2_upload_prepends_target_only_witness :
    imagesOf (prependTo ("campo") recA CATEGORIES) "campo" = some [recA] :=
  (C2_upload_prepends_target_only.1 ("campo") recA CATEGORIES).2.2.1 []
    (by with_unfolding_all rfl)

/-! ## Claim theorems: batch upload error handling -/

/-- C6 counterexample: the claim says a `DecodeError` aborts only the
failing file while the remaining files of the batch continue to be
processed.  On the code, the whole `for` loop sits inside one `try`, so
the thrown error aborts the remaining batch: `fileB` alone uploads fine
(its two remote calls are issued and its record lands in `campo`), but
in the batch `[fileDecodeBad, fileB]` the decode failure on the first
file leaves the categories unchanged, issues no remote call at all — in
particular none for `fileB` — and surfaces the decode error. -/
theorem C6_decode_error_aborts_batch_counterexample :
    (processFiles ("campo") [fileB] CATEGORIES).2.1
        = [.storagePut ("campo/ub.webp"),
           .dbInsert ("campo") "campo/ub.webp" "https://cdn/b1"] ∧
    imagesOf (processFiles ("campo") [fileB] CATEGORIES).1 ("campo")
        = some [recB] ∧
    processFiles ("campo") [fileDecodeBad, fileB] CATEGORIES
        = (CATEGORIES, [], some ("Failed to load image")) := by
  refine ⟨by with_unfolding_all rfl, by with_unfolding_all rfl,
    by with_unfolding_all rfl⟩

/-- C6 (amended): when a file of the batch with an image media type fails
at any pipeline stage (in particular a `DecodeError`), its error is
surfaced and the whole remaining batch is aborted — the result does not
depend on the files after the failing one, so the successes form a
prefix of the attempted image files; only files whose declared type is
not an image are skipped with the batch continuing. -/
theorem C6_batch_abort_semantics :
    (∀ (catId : String) (f : FileSpec) (rest : List FileSpec)
        (cats : List CategoryData) (calls : List RemoteCall) (msg : String),
        f.type.startsWith ("image/") = true →
        uploadImage catId f = (calls, .error msg) →
        processFiles catId (f :: rest) cats = (cats, calls, some msg)) ∧
    (∀ (catId : String) (f : FileSpec) (rest : List FileSpec)
        (cats : List CategoryData),
        f.type.startsWith ("image/") = false →
        processFiles catId (f :: rest) cats = processFiles catId rest cats) := by
  constructor
  · intro catId f rest cats calls msg htype hupload
    simp [processFiles, htype, hupload]
  · intro catId f rest cats htype
    simp [processFiles, htype]

/-- C6 witness: the abort semantics applied to the concrete failing batch
with the successful `fileB` still pending. -/
theorem C6_batch_abort_semantics_witness :
    processFiles ("campo") [fileDecodeBad, fileB] CATEGORIES
      = (CATEGORIES, [], some ("Failed to load image")) :=
  C6_batch_abort_semantics.1 ("campo") fileDecodeBad [fileB] CATEGORIES []
    "Failed to load image" (by with_unfolding_all rfl)
    (by with_unfolding_all rfl)

/-- C7: a file whose declared media type does not start with `image/` is
skipped by `continue` before `uploadImage` is ever called: processing it
at the head of a batch equals processing the rest of the batch, and
processing it alone issues no storage or metadata call, changes no
category, and surfaces no error. -/
theorem C7_non_image_rejected :
    ∀ (catId : String) (f : FileSpec) (rest : List FileSpec)
      (cats : List CategoryData),
      f.type.startsWith ("image/") = false →
      processFiles catId (f :: rest) cats = processFiles catId rest cats ∧
      processFiles catId [f] cats = (cats, [], none) := by
  intro catId f rest cats htype
  constructor
  · simp [processFiles, htype]
  · simp [processFiles, htype]

/-- C7 witness: a PDF file is rejected without remote calls or state
change. -/
theorem C7_non_image_rejected_witness :
    processFiles ("campo") [filePdf] CATEGORIES = (CATEGORIES, [], none) :=
  (C7_non_image_rejected ("campo") filePdf [] CATEGORIES
    (by with_unfolding_all rfl)).2

/-! ## Claim theorems: initial load aggregation -/

/-- `Promise.all` rejects as soon as any outcome is an error. -/
theorem promiseAll_error_of_mem :
    ∀ (outcomes : List (Except String (List ImageRecord))),
      (∃ e, Except.error e ∈ outcomes) →
      ∃ msg, promiseAll outcomes = .error msg := by
  intro outcomes
  induction outcomes with
  | nil =>
      rintro ⟨e, he⟩
      cases he
  | cons o rest ih =>
      rintro ⟨e, he⟩
      cases o with
      | error e0 => exact ⟨e0, rfl⟩
      | ok a =>
          have hrest : ∃ e, Except.error e ∈ rest := by
            rcases List.mem_cons.mp he with h | h
            · cases h
            · exact ⟨e, h⟩
          obtain ⟨msg, hmsg⟩ := ih hrest
          exact ⟨msg, by simp [promiseAll, hmsg, Except.map]⟩

/-- C10: if the initial fetch fails for any category, `load` leaves every
category exactly as the static `CATEGORIES` — all image sequences empty,
no partially hydrated mix — and produces exactly one aggregate error
message. -/
theorem C10_fetch_failure_leaves_all_empty :
    ∀ outcomes : List (Except String (List ImageRecord)),
      (∃ e, Except.error e ∈ outcomes) →
      ∃ msg, promiseAll outcomes = .error msg ∧
        load outcomes = (CATEGORIES, some msg) ∧
        ∀ cat ∈ (load outcomes).1, cat.images = ([] : List ImageRecord) := by
  intro outcomes hmem
  obtain ⟨msg, hmsg⟩ := promiseAll_error_of_mem outcomes hmem
  refine ⟨msg, hmsg, by simp [load, hmsg], ?_⟩
  intro cat hcat
  rw [show (load outcomes).1 = CATEGORIES by simp [load, hmsg]] at hcat
  simp only [CATEGORIES, List.mem_cons, List.not_mem_nil, or_false] at hcat
  rcases hcat with h | h | h | h <;> rw [h]

/-- C10 witness: one failing category out of four leaves everything empty
with the single aggregate message. -/
theorem C10_fetch_failure_leaves_all_empty_witness :
    ∃ msg,
      promiseAll [.error ("network down"), .ok [recA], .ok [], .ok []]
        = .error msg ∧
      load [.error ("network down"), .ok [recA], .ok [], .ok []]
        = (CATEGORIES, some msg) ∧
      ∀ cat ∈ (load [.error ("network down"), .ok [recA], .ok [], .ok []]).1,
        cat.images = ([] : List ImageRecord) :=
  C10_fetch_failure_leaves_all_empty
    [.error ("network down"), .ok [recA], .ok [], .ok []]
    ⟨"network down", by simp⟩

end Tablero
